import Mathlib

/-!
# Formatorbit bundled plugins — shallow embedding and verification

This file embeds the four bundled plugin source files of the `formatorbit`
repository (`custom_decoder.py`, `crypto.py`, `checksums.py`, `math_ext.py`)
as Lean definitions and proves properties of the specification against them.

Modelling conventions:
* Python strings and byte strings are `List ℕ` of code points / byte values;
  `s2l` converts a Lean string literal to that form.
* Python floats used as clock times are modelled as `ℕ` time-units; the only
  comparison performed by the code (`now - _cache_time < CACHE_DURATION`)
  has the same truth value under ℕ truncated subtraction as under real
  subtraction, for every pair of values.
* Numeric expression arguments are `ℚ`; Python `int(x)` is truncation toward
  zero (`Int.tdiv` of numerator by denominator), Python `float(x)` is the
  identity idealisation of a rational as an exact floating value.
* External library functions that are not part of the repository
  (`hashlib` digests, `zlib.crc32`, `math.sqrt` / `log` / trig, the HTTP
  fetch) are parameters of the embedded definitions.
* The upstream HTTP fetch and parse inside the `try` block of `crypto.py`
  is modelled by a three-way outcome: success, an exception of one of the
  kinds listed in the `except (URLError, JSONDecodeError, KeyError)`
  clause (caught, degrading to the cached value), or an exception outside
  that tuple — `AttributeError` from `data.get` on a JSON payload that is
  not an object, `UnicodeDecodeError` from decoding a non-UTF-8 body, a
  bare `TimeoutError` from a stalled body read — which propagates through
  `_fetch_rates` and the provider functions to their caller.
-/

namespace Forb

/-- Convert a Lean string literal to the `List ℕ` code-point model of a
Python string. -/
def s2l (s : String) : List ℕ := s.data.map (fun c => c.val.toNat)

/-- The tagged union of core values (`forb.CoreValue`); the decoders under
verification only construct `String` values. -/
inductive CoreValue where
  | String (s : List ℕ)
  | Bytes (b : List ℕ)
  | Integer (n : ℤ)
  | Decimal (q : ℚ)
deriving DecidableEq

/-- One candidate decoding of raw input (`forb.Interpretation`). -/
structure Interpretation where
  value : CoreValue
  confidence : ℚ
  description : List ℕ
deriving DecidableEq

/-- Insert an interpretation into a list sorted by non-increasing
confidence, after all entries of greater or equal confidence (so that the
overall sort is stable: ties keep the earlier-emitted interpretation
first). -/
def insertDesc (i : Interpretation) : List Interpretation → List Interpretation
  | [] => [i]
  | j :: rest => if j.confidence < i.confidence then i :: j :: rest else j :: insertDesc i rest

/-- Modelled from the spec: the host engine's decoder dispatch (spec §4.2)
is not part of the visible repository sources. Every registered decoder is
invoked on the raw input, the emitted interpretations are concatenated and
sorted by descending confidence with ties broken by registration /
emission order. -/
def dispatch (decoders : List (List ℕ → List Interpretation)) (input : List ℕ) :
    List Interpretation :=
  ((decoders.map (fun d => d input)).flatten).foldl (fun acc i => insertDesc i acc) []

end Forb

namespace CustomDecoder

open Forb

/-- `str.isalpha` restricted to the ASCII letters. The decoder only ever
emits output for inputs whose characters all lie in `validChar` below, a
subset of ASCII on which Python's Unicode-aware `isalpha` agrees with this
ASCII test; on any input containing a non-ASCII character both the Python
code and this model return the empty list. -/
def isalpha (c : ℕ) : Bool :=
  decide ((97 ≤ c ∧ c ≤ 122) ∨ (65 ≤ c ∧ c ≤ 90))

/-- Membership in `string.ascii_letters + string.digits + " .,!?'-\""`
(the `valid_chars` set of `decode_rot13`). -/
def validChar (c : ℕ) : Bool :=
  isalpha c || decide (48 ≤ c ∧ c ≤ 57) ||
    decide (c ∈ ([32, 46, 44, 33, 63, 39, 45, 34] : List ℕ))

/-- The per-character ROT13 map of `custom_decoder.rot13`: lowercase and
uppercase ASCII letters rotate by 13 inside their case class, everything
else is unchanged. -/
def rot13Char (c : ℕ) : ℕ :=
  if 97 ≤ c ∧ c ≤ 122 then (c - 97 + 13) % 26 + 97
  else if 65 ≤ c ∧ c ≤ 90 then (c - 65 + 13) % 26 + 65
  else c

/-- `custom_decoder.rot13`: character-wise ROT13 over the string. -/
def rot13 (s : List ℕ) : List ℕ := s.map rot13Char

/-- `custom_decoder.decode_example`: decode strings starting with the
`"EXAMPLE:"` marker into a `String` interpretation of the remainder with
confidence 0.95. -/
def decode_example (input_str : List ℕ) : List Interpretation :=
  if (s2l "EXAMPLE:").isPrefixOf input_str then
    [⟨CoreValue.String (input_str.drop (s2l "EXAMPLE:").length), 19/20,
      s2l "Example format: " ++ input_str.drop (s2l "EXAMPLE:").length⟩]
  else []

/-- `custom_decoder.decode_rot13`: requires at least 3 letters and only
characters from `validChar`, decodes with ROT13, and emits a single
confidence-0.3 interpretation unless the decoded text equals the input. -/
def decode_rot13 (input_str : List ℕ) : List Interpretation :=
  if input_str.countP isalpha < 3 then []
  else if ! input_str.all validChar then []
  else if rot13 input_str = input_str then []
  else [⟨CoreValue.String (rot13 input_str), 3/10,
    s2l "ROT13 decoded: " ++ rot13 input_str⟩]

end CustomDecoder

namespace Crypto

/-- The three rate fields built by `crypto._fetch_rates` from the CoinGecko
response: `data.get(coin, {}).get("usd")` may be absent, hence `Option`. -/
structure Rates where
  btc : Option ℚ
  eth : Option ℚ
  sol : Option ℚ
deriving DecidableEq

/-- The module-level mutable state of `crypto.py`: `_cache` (the shared
dictionary; `none` models the initial empty dict, which is falsy) and
`_cache_time`. -/
structure CryptoState where
  cache : Option Rates
  cache_time : ℕ
deriving DecidableEq

/-- The initial module state: `_cache = {}`, `_cache_time = 0`. -/
def initState : CryptoState := ⟨none, 0⟩

/-- `crypto.CACHE_DURATION`: rates are cached for 60 seconds. -/
def CACHE_DURATION : ℕ := 60

/-- The Python exception kinds that the `try` body of `_fetch_rates` can
raise but the `except (URLError, JSONDecodeError, KeyError)` clause does
not catch, so they propagate to the caller: `AttributeError` from
`data.get` on a JSON payload that is not an object, `UnicodeDecodeError`
from `response.read().decode()` on a non-UTF-8 body, and a bare
`TimeoutError` from a stalled body read. -/
inductive PyExn where
  | AttributeError
  | UnicodeDecodeError
  | TimeoutError
deriving DecidableEq

/-- Outcome of the upstream HTTP fetch and parse inside the `try` block of
`_fetch_rates`: a successfully parsed set of rates, an exception of one of
the kinds the `except` clause catches (`URLError`, `json.JSONDecodeError`,
`KeyError`), or an exception outside the `except` tuple. -/
inductive UpstreamOutcome where
  | ok (r : Rates)
  | caught
  | uncaught (e : PyExn)
deriving DecidableEq

/-- Result of one `_fetch_rates` call: the returned dictionary (`none` for
the empty dict) or the propagated exception, the module state after the
call, and whether an upstream HTTP request was issued. -/
structure FetchResult where
  rates : Except PyExn (Option Rates)
  state : CryptoState
  upstreamCalled : Bool

/-- `crypto._fetch_rates`, with the external HTTP fetch and parse as the
`upstream` parameter and the clock as `now`. The cached dictionary is
returned without an upstream call while `_cache` is non-empty and
`now - _cache_time < CACHE_DURATION`; a successful fetch overwrites the
cache and timestamp; a failure of a caught kind returns the stale cache
unchanged; an exception outside the `except` tuple propagates — before
the `_cache = {...}` assignment completes, so the module state is
unchanged. -/
def fetch_rates (upstream : UpstreamOutcome) (now : ℕ) (st : CryptoState) : FetchResult :=
  if st.cache.isSome ∧ now - st.cache_time < CACHE_DURATION then
    ⟨.ok st.cache, st, false⟩
  else
    match upstream with
    | .ok r => ⟨.ok (some r), ⟨some r, now⟩, true⟩
    | .caught => ⟨.ok st.cache, st, true⟩
    | .uncaught e => ⟨.error e, st, true⟩

/-- `crypto.btc_rate`: `rates.get("BTC")`, `None` propagated, otherwise
paired with the quote currency `"USD"`; an exception raised by
`_fetch_rates` passes through uncaught (the provider body has no
`try`). -/
def btc_rate (upstream : UpstreamOutcome) (now : ℕ) (st : CryptoState) :
    Except PyExn (Option (ℚ × List ℕ)) × CryptoState × Bool :=
  let r := fetch_rates upstream now st
  (r.rates.map (fun rates => (rates.bind Rates.btc).map (fun q => (q, Forb.s2l "USD"))),
    r.state, r.upstreamCalled)

/-- `crypto.eth_rate`: as `btc_rate` for `"ETH"`. -/
def eth_rate (upstream : UpstreamOutcome) (now : ℕ) (st : CryptoState) :
    Except PyExn (Option (ℚ × List ℕ)) × CryptoState × Bool :=
  let r := fetch_rates upstream now st
  (r.rates.map (fun rates => (rates.bind Rates.eth).map (fun q => (q, Forb.s2l "USD"))),
    r.state, r.upstreamCalled)

/-- `crypto.sol_rate`: as `btc_rate` for `"SOL"`. -/
def sol_rate (upstream : UpstreamOutcome) (now : ℕ) (st : CryptoState) :
    Except PyExn (Option (ℚ × List ℕ)) × CryptoState × Bool :=
  let r := fetch_rates upstream now st
  (r.rates.map (fun rates => (rates.bind Rates.sol).map (fun q => (q, Forb.s2l "USD"))),
    r.state, r.upstreamCalled)

end Crypto

namespace Checksums

open Forb

/-- One lowercase hexadecimal digit. -/
def hexDigit (n : ℕ) : ℕ := if n < 10 then 48 + n else 87 + n

/-- Zero-padded 8-digit lowercase hexadecimal rendering, the `{crc:08x}`
format applied to a value below `2^32`. -/
def hex8 (n : ℕ) : List ℕ :=
  (List.range 8).reverse.map (fun i => hexDigit (n / 16 ^ i % 16))

/-- `checksums.compute_crc32` with `zlib.crc32` as the parameter `crc32`:
inputs over 10 MB are skipped, otherwise the masked CRC is formatted. -/
def compute_crc32 (crc32 : List ℕ → ℕ) (value : List ℕ) : Option (List ℕ) :=
  if value.length > 10000000 then none
  else some (s2l "crc32: " ++ hex8 (crc32 value % 2 ^ 32))

/-- `checksums.compute_md5` with `hashlib.md5(·).hexdigest()` as the
parameter `md5hex`: inputs over 10 MB are skipped. -/
def compute_md5 (md5hex : List ℕ → List ℕ) (value : List ℕ) : Option (List ℕ) :=
  if value.length > 10000000 then none
  else some (s2l "md5: " ++ md5hex value)

/-- `checksums.compute_sha1` with `hashlib.sha1(·).hexdigest()` as the
parameter `sha1hex`: inputs over 10 MB are skipped. -/
def compute_sha1 (sha1hex : List ℕ → List ℕ) (value : List ℕ) : Option (List ℕ) :=
  if value.length > 10000000 then none
  else some (s2l "sha1: " ++ sha1hex value)

/-- `checksums.compute_sha256` with `hashlib.sha256(·).hexdigest()` as the
parameter `sha256hex`: inputs over 1 MB are skipped. -/
def compute_sha256 (sha256hex : List ℕ → List ℕ) (value : List ℕ) : Option (List ℕ) :=
  if value.length > 1000000 then none
  else some (s2l "sha256: " ++ sha256hex value)

/-- `checksums.compute_sha512` with `hashlib.sha512(·).hexdigest()` as the
parameter `sha512hex`: inputs over 1 MB are skipped. -/
def compute_sha512 (sha512hex : List ℕ → List ℕ) (value : List ℕ) : Option (List ℕ) :=
  if value.length > 1000000 then none
  else some (s2l "sha512: " ++ sha512hex value)

/-- `checksums.compute_blake2b` with `hashlib.blake2b(·, digest_size
= d).hexdigest()` as the parameter `blake2bHex d`: inputs over 1 MB are
skipped, the digest size is 32 bytes. -/
def compute_blake2b (blake2bHex : ℕ → List ℕ → List ℕ) (value : List ℕ) :
    Option (List ℕ) :=
  if value.length > 1000000 then none
  else some (s2l "blake2b-256: " ++ blake2bHex 32 value)

end Checksums

namespace MathExt

/-- Python `int(x)` on a rational: truncation toward zero, i.e. T-division
of the numerator by the denominator. -/
def pyInt (q : ℚ) : ℤ := q.num.tdiv (q.den : ℤ)

/-- Python `float(x)` on a rational, idealised as exact: the identity. -/
def pyFloat (q : ℚ) : ℚ := q

/-- The expression-engine error taxonomy the spec assigns to expression
function misuse (spec §4.5 / §7). -/
inductive ExprError where
  | ArityMismatch
  | DomainError
deriving DecidableEq

/-- `math_ext.factorial`: `math.factorial(int(n))`; `math.factorial`
rejects negative arguments, which the spec surfaces as `DomainError`. -/
def factorial (n : ℚ) : Except ExprError ℕ :=
  let m := pyInt n
  if m < 0 then .error .DomainError else .ok (Nat.factorial m.toNat)

/-- The iteration `a, b = b, a + b` of `math_ext.fibonacci`, run `k`
times on the pair `(a, b)`. -/
def fibLoop : ℕ → ℤ × ℤ → ℤ × ℤ
  | 0, p => p
  | k + 1, (a, b) => fibLoop k (b, a + b)

/-- `math_ext.fibonacci`: `n = int(n)`; arguments at most 1 are returned
unchanged, otherwise the loop runs `n - 1` times from `(0, 1)` and returns
the second component. -/
def fibonacci (q : ℚ) : ℤ :=
  let n := pyInt q
  if n ≤ 1 then n else (fibLoop (n - 1).toNat (0, 1)).2

/-- `math_ext.gcd`: `math.gcd(int(a), int(b))` (non-negative result). -/
def gcd (a b : ℚ) : ℕ := Int.gcd (pyInt a) (pyInt b)

/-- `math_ext.lcm`: `abs(a * b) // math.gcd(a, b) if a and b else 0` on
the truncated arguments. -/
def lcm (a b : ℚ) : ℕ :=
  let a' := pyInt a
  let b' := pyInt b
  if a' ≠ 0 ∧ b' ≠ 0 then (a' * b').natAbs / Int.gcd a' b' else 0

/-- `math_ext.is_prime`: trial division of `n = int(n)` by
`2, ..., int(n ** 0.5)` (the float square root idealised as
`Nat.sqrt`), returning 1 or 0. -/
def is_prime (q : ℚ) : ℕ :=
  let n := pyInt q
  if n < 2 then 0
  else if (List.range' 2 (Nat.sqrt n.toNat - 1)).any (fun i => n % (i : ℤ) = 0) then 0
  else 1

/-- The external `math`-module functions used by the floating-point
wrappers of `math_ext.py`; they are not part of the repository. -/
structure PyMath where
  sqrt : ℚ → ℚ
  log : ℚ → ℚ
  log10 : ℚ → ℚ
  sin : ℚ → ℚ
  cos : ℚ → ℚ
  tan : ℚ → ℚ

/-- `math_ext.sqrt`: `math.sqrt(float(n))`. -/
def sqrtFn (M : PyMath) (n : ℚ) : ℚ := M.sqrt (pyFloat n)

/-- `math_ext.log`: `math.log(float(n))`. -/
def logFn (M : PyMath) (n : ℚ) : ℚ := M.log (pyFloat n)

/-- `math_ext.log10`: `math.log10(float(n))`. -/
def log10Fn (M : PyMath) (n : ℚ) : ℚ := M.log10 (pyFloat n)

/-- `math_ext.sin`: `math.sin(float(n))`. -/
def sinFn (M : PyMath) (n : ℚ) : ℚ := M.sin (pyFloat n)

/-- `math_ext.cos`: `math.cos(float(n))`. -/
def cosFn (M : PyMath) (n : ℚ) : ℚ := M.cos (pyFloat n)

/-- `math_ext.tan`: `math.tan(float(n))`. -/
def tanFn (M : PyMath) (n : ℚ) : ℚ := M.tan (pyFloat n)

/-- An expression function as registered with the engine: a declared arity
(inferred from the callable's parameters) and an implementation on an
argument list. -/
structure ExprFunc where
  arity : ℕ
  impl : List ℚ → Except ExprError ℚ

/-- Modelled from the spec: the expression engine's function-call protocol
(spec §4.5) is not part of the visible repository sources. A call whose
argument count disagrees with the declared arity fails with
`ArityMismatch`; otherwise the implementation runs and may fail with
`DomainError`. -/
def callExprFunc (f : ExprFunc) (args : List ℚ) : Except ExprError ℚ :=
  if args.length = f.arity then f.impl args else .error .ArityMismatch

/-- The registration of `factorial` as a 1-argument expression function. -/
def factorialFunc : ExprFunc :=
  ⟨1, fun args =>
    match args with
    | [n] => (factorial n).map (fun k => (k : ℚ))
    | _ => .error .ArityMismatch⟩

end MathExt

namespace CustomDecoder

open Forb

/-- Claim C1: on `"EXAMPLE:hi"` the example-format decoder returns exactly
one interpretation — a `String` value `"hi"` with confidence 0.95 — which
ranks first in dispatch; on `"12345"` both decoders return the empty
sequence, so dispatch over the two decoders is empty overall. -/
theorem claim_C1 :
    decode_example (s2l "EXAMPLE:hi") =
      [⟨CoreValue.String (s2l "hi"), 19/20, s2l "Example format: hi"⟩] ∧
    dispatch [decode_example, decode_rot13] (s2l "EXAMPLE:hi") =
      [⟨CoreValue.String (s2l "hi"), 19/20, s2l "Example format: hi"⟩] ∧
    decode_rot13 (s2l "12345") = [] ∧
    decode_example (s2l "12345") = [] ∧
    dispatch [decode_example, decode_rot13] (s2l "12345") = [] :=
  ⟨rfl, rfl, rfl, rfl, rfl⟩

end CustomDecoder

namespace Crypto

/-- Claim C2: after a successful rate fetch (which stores the rates and
sets the fetch time), every `_fetch_rates` call strictly within the 60
time-unit TTL window returns the identical cached rates without an
upstream call — the cache-hit return precedes the `try` block, so this
holds for every upstream outcome — and a call at or after expiry issues a
new upstream fetch. -/
theorem claim_C2 (upstream : UpstreamOutcome) (r : Rates) (u t0 now : ℕ) :
    (fetch_rates (.ok r) t0 ⟨none, u⟩).state = ⟨some r, t0⟩ ∧
    (now < t0 + CACHE_DURATION →
      fetch_rates upstream now ⟨some r, t0⟩ = ⟨.ok (some r), ⟨some r, t0⟩, false⟩) ∧
    (t0 + CACHE_DURATION ≤ now →
      (fetch_rates upstream now ⟨some r, t0⟩).upstreamCalled = true) := by
  refine ⟨rfl, fun h => ?_, fun h => ?_⟩
  · have h2 : now < t0 + 60 := h
    unfold fetch_rates
    rw [if_pos ⟨rfl, show now - t0 < 60 by omega⟩]
  · have h2 : t0 + 60 ≤ now := h
    unfold fetch_rates
    rw [if_neg (by
      rintro ⟨-, hlt⟩
      have hlt2 : now - t0 < 60 := hlt
      omega)]
    cases upstream <;> rfl

/-- Witness for C2 at the concrete post-fetch state `⟨rates, 0⟩`: the call
at time 59 serves the cache without an upstream call, the call at time 60
issues an upstream fetch. -/
theorem claim_C2_witness :
    fetch_rates .caught 59 ⟨some ⟨some 100, some 10, some 1⟩, 0⟩ =
      ⟨.ok (some ⟨some 100, some 10, some 1⟩), ⟨some ⟨some 100, some 10, some 1⟩, 0⟩, false⟩ ∧
    (fetch_rates .caught 60 ⟨some ⟨some 100, some 10, some 1⟩, 0⟩).upstreamCalled = true :=
  ⟨(claim_C2 .caught ⟨some 100, some 10, some 1⟩ 0 0 59).2.1 (by decide),
   (claim_C2 .caught ⟨some 100, some 10, some 1⟩ 0 0 60).2.2 (by decide)⟩

/-- Counterexample to claim C3 as stated: with one prior successful fetch
cached (at time 0) and the TTL expired (time 60), an upstream failure
from a malformed payload that is valid JSON but not an object raises
`AttributeError` at `data.get` — a kind outside the `except (URLError,
JSONDecodeError, KeyError)` clause — and the BTC provider propagates the
exception to its caller instead of returning the cached rates. -/
theorem claim_C3_counterexample :
    (btc_rate (.uncaught PyExn.AttributeError) 60
        ⟨some ⟨some 100, some 10, some 1⟩, 0⟩).1 =
      .error PyExn.AttributeError :=
  rfl

/-- Amended claim C3: with a previously cached value present, an upstream
failure of one of the caught kinds (`URLError`, `json.JSONDecodeError`,
`KeyError` — a network error or a JSON-parse failure) makes
`_fetch_rates` return the cached rates at every time, and each of the
three currency providers returns its cached component rather than an
error; an upstream failure outside the `except` tuple (`AttributeError`
from a non-object JSON payload, `UnicodeDecodeError` from a non-UTF-8
body, a bare `TimeoutError`) instead propagates to the caller of the provider
once the TTL has expired. -/
theorem claim_C3_amended (r : Rates) (t0 now : ℕ) :
    (fetch_rates .caught now ⟨some r, t0⟩).rates = .ok (some r) ∧
    (btc_rate .caught now ⟨some r, t0⟩).1 =
      .ok (r.btc.map (fun q => (q, Forb.s2l "USD"))) ∧
    (eth_rate .caught now ⟨some r, t0⟩).1 =
      .ok (r.eth.map (fun q => (q, Forb.s2l "USD"))) ∧
    (sol_rate .caught now ⟨some r, t0⟩).1 =
      .ok (r.sol.map (fun q => (q, Forb.s2l "USD"))) ∧
    (t0 + CACHE_DURATION ≤ now → ∀ e,
      (btc_rate (.uncaught e) now ⟨some r, t0⟩).1 = .error e ∧
      (eth_rate (.uncaught e) now ⟨some r, t0⟩).1 = .error e ∧
      (sol_rate (.uncaught e) now ⟨some r, t0⟩).1 = .error e) := by
  have hr : (fetch_rates .caught now ⟨some r, t0⟩).rates = .ok (some r) := by
    unfold fetch_rates
    split <;> rfl
  refine ⟨hr, ?_, ?_, ?_, fun h e => ?_⟩
  · simp only [btc_rate]
    rw [hr]
    rfl
  · simp only [eth_rate]
    rw [hr]
    rfl
  · simp only [sol_rate]
    rw [hr]
    rfl
  · have h2 : t0 + 60 ≤ now := h
    have hp : (fetch_rates (.uncaught e) now ⟨some r, t0⟩).rates = .error e := by
      unfold fetch_rates
      rw [if_neg (by
        rintro ⟨-, hlt⟩
        have hlt2 : now - t0 < 60 := hlt
        omega)]
    refine ⟨?_, ?_, ?_⟩ <;>
      · simp only [btc_rate, eth_rate, sol_rate]
        rw [hp]
        rfl

/-- Witness for the amended C3 at the concrete cached state `⟨rates, 0⟩`
and time 60: a caught failure serves the cached BTC quote, an uncaught
`AttributeError` propagates. -/
theorem claim_C3_witness :
    (btc_rate .caught 60 ⟨some ⟨some 100, some 10, some 1⟩, 0⟩).1 =
      .ok (some (100, Forb.s2l "USD")) ∧
    (btc_rate (.uncaught PyExn.AttributeError) 60
        ⟨some ⟨some 100, some 10, some 1⟩, 0⟩).1 =
      .error PyExn.AttributeError := by
  have h := claim_C3_amended ⟨some 100, some 10, some 1⟩ 0 60
  exact ⟨h.2.1, (h.2.2.2.2 (by decide) PyExn.AttributeError).1⟩

/-- Counterexample to claim C4 as stated: from the pristine module state
(no prior successful fetch), an upstream failure whose exception kind
lies outside the `except` tuple — here `UnicodeDecodeError` from a
non-UTF-8 response body — propagates out of every provider (BTC, ETH,
SOL) instead of yielding the null unavailable result. -/
theorem claim_C4_counterexample :
    (btc_rate (.uncaught PyExn.UnicodeDecodeError) 0 initState).1 =
      .error PyExn.UnicodeDecodeError ∧
    (eth_rate (.uncaught PyExn.UnicodeDecodeError) 0 initState).1 =
      .error PyExn.UnicodeDecodeError ∧
    (sol_rate (.uncaught PyExn.UnicodeDecodeError) 0 initState).1 =
      .error PyExn.UnicodeDecodeError :=
  ⟨rfl, rfl, rfl⟩

/-- Amended claim C4: with no prior successful fetch, an upstream failure
of one of the caught kinds (`URLError`, `json.JSONDecodeError`,
`KeyError`) does not raise: the caught branch returns the empty cache
dictionary and each provider (BTC, ETH, SOL) returns the null "rate
currently unavailable" result; an upstream failure outside the `except`
tuple propagates to each caller of the provider as an exception. -/
theorem claim_C4_amended (now u : ℕ) :
    (btc_rate .caught now ⟨none, u⟩).1 = .ok none ∧
    (eth_rate .caught now ⟨none, u⟩).1 = .ok none ∧
    (sol_rate .caught now ⟨none, u⟩).1 = .ok none ∧
    ∀ e, (btc_rate (.uncaught e) now ⟨none, u⟩).1 = .error e ∧
      (eth_rate (.uncaught e) now ⟨none, u⟩).1 = .error e ∧
      (sol_rate (.uncaught e) now ⟨none, u⟩).1 = .error e :=
  ⟨rfl, rfl, rfl, fun _ => ⟨rfl, rfl, rfl⟩⟩

/-- Counterexample to claim C5 as stated: plugin-side mutable state written
by one invocation does influence a later invocation. A successful
`btc_rate` call at time 0 writes the module globals; a later call at time
10 whose upstream fails (caught kind) returns `some (100, "USD")` from
that retained state, while the same call from the pristine module state
returns `none`. -/
theorem claim_C5_counterexample :
    (btc_rate (.ok ⟨some 100, some 10, some 1⟩) 0 initState).2.1 =
      ⟨some ⟨some 100, some 10, some 1⟩, 0⟩ ∧
    (btc_rate .caught 10 ⟨some ⟨some 100, some 10, some 1⟩, 0⟩).1 =
      .ok (some (100, Forb.s2l "USD")) ∧
    (btc_rate .caught 10 initState).1 = .ok none :=
  ⟨rfl, rfl, rfl⟩

/-- Amended claim C5: the provider plugin itself retains rate state between
calls in the module-level globals `_cache` / `_cache_time` — a successful
invocation writes the fetched rates into plugin state, and a later
invocation with a failing upstream returns exactly the retained rates
(or `None` when nothing was retained) — so caching lives in the plugin,
not in the engine. -/
theorem claim_C5_amended (r : Rates) (t0 now u : ℕ) :
    (btc_rate (.ok r) t0 ⟨none, u⟩).2.1 = ⟨some r, t0⟩ ∧
    (btc_rate .caught now ⟨some r, t0⟩).1 =
      .ok (r.btc.map (fun q => (q, Forb.s2l "USD"))) ∧
    (btc_rate .caught now ⟨none, u⟩).1 = .ok none := by
  have hr : (fetch_rates .caught now ⟨some r, t0⟩).rates = .ok (some r) := by
    unfold fetch_rates
    split <;> rfl
  refine ⟨rfl, ?_, rfl⟩
  simp only [btc_rate]
  rw [hr]
  rfl

end Crypto

namespace Checksums

/-- Claim C6: every byte input longer than the declared threshold makes the
checksum trait return `None` (the not-applicable result) instead of a
digest — the threshold being 10,000,000 bytes for `crc32`, `md5` and
`sha1`, and 1,000,000 bytes for `sha256`, `sha512` and `blake2b-256` —
for every choice of the external digest functions. -/
theorem claim_C6 (fcrc : List ℕ → ℕ) (fmd5 fsha1 fsha256 fsha512 : List ℕ → List ℕ)
    (fblake : ℕ → List ℕ → List ℕ) (value : List ℕ) :
    (10000000 < value.length →
      compute_crc32 fcrc value = none ∧ compute_md5 fmd5 value = none ∧
      compute_sha1 fsha1 value = none) ∧
    (1000000 < value.length →
      compute_sha256 fsha256 value = none ∧ compute_sha512 fsha512 value = none ∧
      compute_blake2b fblake value = none) := by
  constructor <;> intro h <;>
    refine ⟨?_, ?_, ?_⟩ <;>
    simp [compute_crc32, compute_md5, compute_sha1, compute_sha256, compute_sha512,
      compute_blake2b, h]

/-- Witness for C6: a 10,000,001-byte input is skipped by all six checksum
traits. -/
theorem claim_C6_witness :
    compute_crc32 (fun _ => 0) (List.replicate 10000001 0) = none ∧
    compute_md5 (fun _ => []) (List.replicate 10000001 0) = none ∧
    compute_sha1 (fun _ => []) (List.replicate 10000001 0) = none ∧
    compute_sha256 (fun _ => []) (List.replicate 10000001 0) = none ∧
    compute_sha512 (fun _ => []) (List.replicate 10000001 0) = none ∧
    compute_blake2b (fun _ _ => []) (List.replicate 10000001 0) = none := by
  have h := claim_C6 (fun _ => 0) (fun _ => []) (fun _ => []) (fun _ => [])
    (fun _ => []) (fun _ _ => []) (List.replicate 10000001 0)
  have h1 := h.1 (by simp only [List.length_replicate]; omega)
  have h2 := h.2 (by simp only [List.length_replicate]; omega)
  exact ⟨h1.1, h1.2.1, h1.2.2, h2.1, h2.2.1, h2.2.2⟩

end Checksums

namespace MathExt

/-- Claim C7: the expression function `factorial` called with argument `-1`
fails with `DomainError`, and called with two arguments against its
declared arity 1 fails with `ArityMismatch`; in both cases the result is
an error, not a numeric value. -/
theorem claim_C7 :
    callExprFunc factorialFunc [(-1 : ℚ)] = .error ExprError.DomainError ∧
    ∀ a b : ℚ, callExprFunc factorialFunc [a, b] = .error ExprError.ArityMismatch := by
  exact ⟨rfl, fun a b => rfl⟩

/-- Truncating an already-truncated value changes nothing: Python
`int(int(x)) = int(x)`. -/
theorem pyInt_intCast (n : ℤ) : pyInt (n : ℚ) = n := by
  unfold pyInt
  rw [Rat.num_intCast, Rat.den_intCast]
  exact Int.tdiv_one n

/-- Claim C8: each combinatorial expression function coerces by integer
truncation — it is invariant under replacing its argument by the
truncation `int(x)` — while the `math`-wrapping functions `sqrt`, `log`,
`log10`, `sin`, `cos`, `tan` instead pass the float coercion of the full
argument (idealised as the exact value) to the external function. -/
theorem claim_C8 (M : PyMath) (x y : ℚ) :
    factorial x = factorial ((pyInt x : ℤ) : ℚ) ∧
    fibonacci x = fibonacci ((pyInt x : ℤ) : ℚ) ∧
    gcd x y = gcd ((pyInt x : ℤ) : ℚ) ((pyInt y : ℤ) : ℚ) ∧
    lcm x y = lcm ((pyInt x : ℤ) : ℚ) ((pyInt y : ℤ) : ℚ) ∧
    is_prime x = is_prime ((pyInt x : ℤ) : ℚ) ∧
    sqrtFn M x = M.sqrt (pyFloat x) ∧ logFn M x = M.log (pyFloat x) ∧
    log10Fn M x = M.log10 (pyFloat x) ∧ sinFn M x = M.sin (pyFloat x) ∧
    cosFn M x = M.cos (pyFloat x) ∧ tanFn M x = M.tan (pyFloat x) := by
  refine ⟨?_, ?_, ?_, ?_, ?_, rfl, rfl, rfl, rfl, rfl, rfl⟩ <;>
    simp only [factorial, fibonacci, gcd, lcm, is_prime, pyInt_intCast]

end MathExt

namespace CustomDecoder

open Forb

/-- The per-character ROT13 map is an involution. -/
theorem rot13Char_involutive (c : ℕ) : rot13Char (rot13Char c) = c := by
  by_cases h1 : 97 ≤ c ∧ c ≤ 122
  · have e1 : rot13Char c = (c - 97 + 13) % 26 + 97 := by
      unfold rot13Char; rw [if_pos h1]
    rw [e1]
    unfold rot13Char
    rw [if_pos (by omega)]
    omega
  · by_cases h2 : 65 ≤ c ∧ c ≤ 90
    · have e1 : rot13Char c = (c - 65 + 13) % 26 + 65 := by
        unfold rot13Char; rw [if_neg h1, if_pos h2]
      rw [e1]
      unfold rot13Char
      rw [if_neg (by omega), if_pos (by omega)]
      omega
    · have e1 : rot13Char c = c := by
        unfold rot13Char; rw [if_neg h1, if_neg h2]
      rw [e1, e1]

/-- ROT13 maps letters to letters and non-letters to themselves. -/
theorem isalpha_rot13Char (c : ℕ) : isalpha (rot13Char c) = isalpha c := by
  unfold isalpha rot13Char
  split
  · rw [decide_eq_decide]
    omega
  · split
    · rw [decide_eq_decide]
      omega
    · rfl

/-- ROT13 preserves membership in the decoder's valid-character set. -/
theorem validChar_rot13Char (c : ℕ) : validChar (rot13Char c) = validChar c := by
  by_cases h : isalpha c = true
  · have h' : isalpha (rot13Char c) = true := by rw [isalpha_rot13Char]; exact h
    unfold validChar
    rw [h, h']
    simp only [Bool.true_or]
  · have h2 : ¬((97 ≤ c ∧ c ≤ 122) ∨ (65 ≤ c ∧ c ≤ 90)) := by
      intro hc
      exact h (by unfold isalpha; exact decide_eq_true hc)
    have e : rot13Char c = c := by
      unfold rot13Char
      rw [if_neg (fun hc => h2 (Or.inl hc)), if_neg (fun hc => h2 (Or.inr hc))]
    rw [e]

/-- ROT13 of a string is an involution. -/
theorem rot13_rot13 (s : List ℕ) : rot13 (rot13 s) = s := by
  unfold rot13
  induction s with
  | nil => rfl
  | cons a t ih =>
    simp only [List.map_cons, rot13Char_involutive, List.cons.injEq]
    exact ⟨trivial, ih⟩

/-- ROT13 does not change the letter count used by the decoder's
3-letter guard. -/
theorem countP_rot13 (s : List ℕ) : (rot13 s).countP isalpha = s.countP isalpha := by
  unfold rot13
  induction s with
  | nil => rfl
  | cons a t ih => simp only [List.map_cons, List.countP_cons, isalpha_rot13Char, ih]

/-- ROT13 does not change the decoder's valid-character test. -/
theorem all_rot13 (s : List ℕ) : (rot13 s).all validChar = s.all validChar := by
  unfold rot13
  induction s with
  | nil => rfl
  | cons a t ih => simp only [List.map_cons, List.all_cons, validChar_rot13Char, ih]

/-- Claim C9: the ROT13 transform is an involution, and whenever the rot13
decoder emits an interpretation its decoded value differs from the raw
input (fixed points yield the empty sequence) and re-decoding the emitted
value recovers the original input as the decoded `String` value. -/
theorem claim_C9 (s : List ℕ) :
    rot13 (rot13 s) = s ∧
    (decode_rot13 s ≠ [] →
      decode_rot13 s =
        [⟨CoreValue.String (rot13 s), 3/10, s2l "ROT13 decoded: " ++ rot13 s⟩] ∧
      rot13 s ≠ s ∧
      decode_rot13 (rot13 s) =
        [⟨CoreValue.String s, 3/10, s2l "ROT13 decoded: " ++ s⟩]) := by
  refine ⟨rot13_rot13 s, fun hne => ?_⟩
  by_cases h1 : s.countP isalpha < 3
  · exact absurd (by unfold decode_rot13; rw [if_pos h1]) hne
  · by_cases h2 : s.all validChar = true
    · by_cases h3 : rot13 s = s
      · refine absurd ?_ hne
        unfold decode_rot13
        rw [if_neg h1, if_neg (by rw [h2]; decide), if_pos h3]
      · have hd1 : decode_rot13 s =
            [⟨CoreValue.String (rot13 s), 3/10, s2l "ROT13 decoded: " ++ rot13 s⟩] := by
          unfold decode_rot13
          rw [if_neg h1, if_neg (by rw [h2]; decide), if_neg h3]
        have hd2 : decode_rot13 (rot13 s) =
            [⟨CoreValue.String s, 3/10, s2l "ROT13 decoded: " ++ s⟩] := by
          unfold decode_rot13
          rw [countP_rot13, all_rot13, rot13_rot13]
          rw [if_neg h1, if_neg (by rw [h2]; decide), if_neg (fun he => h3 he.symm)]
        exact ⟨hd1, h3, hd2⟩
    · refine absurd ?_ hne
      have h2f : s.all validChar = false := by
        revert h2; cases s.all validChar <;> simp
      unfold decode_rot13
      rw [if_neg h1, if_pos (by rw [h2f]; decide)]

/-- Witness for C9 at the concrete input `"uryyb"` (ROT13 of `"hello"`):
the decoder emits an interpretation, the decoded value differs from the
input, and re-decoding it recovers `"uryyb"`. -/
theorem claim_C9_witness :
    rot13 (rot13 (s2l "uryyb")) = s2l "uryyb" ∧
    decode_rot13 (s2l "uryyb") =
      [⟨CoreValue.String (rot13 (s2l "uryyb")), 3/10,
        s2l "ROT13 decoded: " ++ rot13 (s2l "uryyb")⟩] ∧
    rot13 (s2l "uryyb") ≠ s2l "uryyb" ∧
    decode_rot13 (rot13 (s2l "uryyb")) =
      [⟨CoreValue.String (s2l "uryyb"), 3/10,
        s2l "ROT13 decoded: " ++ s2l "uryyb"⟩] := by
  have h := claim_C9 (s2l "uryyb")
  have hne : decode_rot13 (s2l "uryyb") ≠ [] := by
    have hl : (decode_rot13 (s2l "uryyb")).length = 1 := rfl
    intro hc
    rw [hc] at hl
    exact absurd hl (by decide)
  have h2 := h.2 hne
  exact ⟨h.1, h2.1, h2.2.1, h2.2.2⟩

end CustomDecoder

namespace MathExt

/-- The loop of `fibonacci` advances a pair of consecutive Fibonacci
numbers by its iteration count. -/
theorem fibLoop_fib (k i : ℕ) :
    fibLoop k ((Nat.fib i : ℤ), (Nat.fib (i + 1) : ℤ)) =
      ((Nat.fib (i + k) : ℤ), (Nat.fib (i + k + 1) : ℤ)) := by
  induction k generalizing i with
  | zero => simp [fibLoop]
  | succ k ih =>
    have e : fibLoop (k + 1) ((Nat.fib i : ℤ), (Nat.fib (i + 1) : ℤ)) =
        fibLoop k ((Nat.fib (i + 1) : ℤ), (Nat.fib (i + 2) : ℤ)) := by
      show fibLoop k ((Nat.fib (i + 1) : ℤ), (Nat.fib i : ℤ) + (Nat.fib (i + 1) : ℤ)) = _
      rw [show ((Nat.fib i : ℤ) + (Nat.fib (i + 1) : ℤ)) = ((Nat.fib (i + 2) : ℤ)) by
        push_cast [Nat.fib_add_two]; ring]
    rw [e, ih (i + 1)]
    have e1 : i + 1 + k = i + (k + 1) := by omega
    rw [e1]

/-- Claim C10: `fib` returns the `n`-th Fibonacci number for every
non-negative truncated argument, and returns the truncated argument
itself for every negative one (the `n <= 1` early return). -/
theorem claim_C10 (q : ℚ) :
    (0 ≤ pyInt q → fibonacci q = ((Nat.fib (pyInt q).toNat : ℤ))) ∧
    (pyInt q < 0 → fibonacci q = pyInt q) := by
  constructor
  · intro h
    unfold fibonacci
    by_cases hle : pyInt q ≤ 1
    · rw [if_pos hle]
      rcases (by omega : pyInt q = 0 ∨ pyInt q = 1) with h0 | h1
      · rw [h0]
        rfl
      · rw [h1]
        rfl
    · rw [if_neg hle]
      have h2 : 2 ≤ pyInt q := by omega
      have e0 : ((0 : ℤ), (1 : ℤ)) = ((Nat.fib 0 : ℤ), (Nat.fib (0 + 1) : ℤ)) := by
        norm_num
      rw [e0, fibLoop_fib]
      show ((Nat.fib (0 + (pyInt q - 1).toNat + 1) : ℤ)) = _
      rw [show 0 + (pyInt q - 1).toNat + 1 = (pyInt q).toNat by omega]
  · intro h
    unfold fibonacci
    rw [if_pos (by omega : pyInt q ≤ 1)]

/-- Witness for C10 at the concrete arguments 10 and -5. -/
theorem claim_C10_witness :
    fibonacci 10 = ((Nat.fib (pyInt 10).toNat : ℤ)) ∧
    fibonacci (-5) = pyInt (-5) :=
  ⟨(claim_C10 10).1 (by decide), (claim_C10 (-5)).2 (by decide)⟩

end MathExt
